import Mathlib

/-!
# Verification of the `canvas` byte-geometry core

A shallow embedding of the repository's layout/pixel/DRM modules
(`src/layout.rs`, `src/pixel.rs`, `src/drm.rs`) into Lean, together with
theorems settling the specification's claims about them.

Machine integers are modelled as `Nat` together with explicit bound checks:
the platform size type (`usize`) is modelled as a 64-bit integer, so checked
arithmetic on it fails exactly when a result exceeds `USIZE_MAX`; `u32`
checked arithmetic fails beyond `U32_MAX`.  Fallible Rust constructors
returning `Option` are modelled as `Option`; the DRM constructor returning
`Result<_, BadDrmError>` is modelled as `Except BadDrmError`.
-/

namespace Canvas

/-- Maximum value of the platform size type; the model fixes a 64-bit
platform, matching the overflow behaviour of `usize` there. -/
def USIZE_MAX : Nat := 2 ^ 64 - 1

/-- Maximum value of `u32`. -/
def U32_MAX : Nat := 2 ^ 32 - 1

/-- Rust `usize::checked_mul`: multiplication that fails on overflow of the
platform size type. -/
def checked_mul (a b : Nat) : Option Nat :=
  if a * b ≤ USIZE_MAX then some (a * b) else none

/-- Rust `usize::checked_add`: addition that fails on overflow of the platform
size type. -/
def checked_add (a b : Nat) : Option Nat :=
  if a + b ≤ USIZE_MAX then some (a + b) else none

/-- Rust `u32::checked_mul`. -/
def u32_checked_mul (a b : Nat) : Option Nat :=
  if a * b ≤ U32_MAX then some (a * b) else none

/-- Rust `u32::checked_add`. -/
def u32_checked_add (a b : Nat) : Option Nat :=
  if a + b ≤ U32_MAX then some (a + b) else none

/-- Rust `u8::is_power_of_two` (true iff exactly one bit is set). -/
def is_power_of_two (n : Nat) : Bool :=
  n ≠ 0 && Nat.land n (n - 1) == 0

/-- The maximal supported alignment, `pixel::MAX_ALIGN` (the alignment of
`MaxAligned`). -/
def MAX_ALIGN : Nat := 16

/-- The witness type `Pixel<P>` of `src/pixel.rs`, shallowly embedded: a
pixel type `P` is characterised by its `size_of` and `align_of`, which are
what the witness's `size()` and `align()` accessors report. -/
structure Pixel where
  size : Nat
  align : Nat
  deriving DecidableEq, Repr

/-- Rust `pixel::constants::U8`. -/
def U8 : Pixel := ⟨1, 1⟩

/-- Rust `pixel::constants::U16`. -/
def U16 : Pixel := ⟨2, 2⟩

/-- Rust `pixel::constants::MAX`, the witness of `MaxAligned` (16 bytes, align 16). -/
def MaxAlignedPixel : Pixel := ⟨16, 16⟩

/-- Rust `layout::Element` of `src/layout.rs`: untyped byte size and alignment of
one element. -/
structure Element where
  size : Nat
  align : Nat
  deriving DecidableEq, Repr

/-- Rust `core::alloc::Layout`, the argument of `Element::with_layout`: a raw
size/alignment pair. -/
structure AllocLayout where
  size : Nat
  align : Nat
  deriving DecidableEq, Repr

namespace Element

/-- Rust `Element::with_layout`: accept a raw layout when its alignment is at most
`MaxAligned::pixel().align()` and its size is a multiple of its alignment. -/
def with_layout (layout : AllocLayout) : Option Element :=
  if layout.align > MaxAlignedPixel.align then none
  else if layout.size % layout.align ≠ 0 then none
  else some { size := layout.size, align := layout.align }

/-- The `Element::size` accessor. -/
def size_accessor (e : Element) : Nat := e.size

/-- The `Element::align` accessor, translated exactly as written in the
source: its body returns `self.size`. -/
def align_accessor (e : Element) : Nat := e.size

/-- Rust `Element::infimum`: componentwise minimum of size and alignment. -/
def infimum (a b : Element) : Element :=
  { size := min a.size b.size, align := min a.align b.align }

/-- Rust `<Element as PartialOrd>::partial_cmp` of `src/layout.rs`. -/
def pcmp (a b : Element) : Option Ordering :=
  if a.size = b.size ∧ a.align = b.align then some .eq
  else if a.size ≤ b.size ∧ a.align ≤ b.align then some .lt
  else if a.size ≥ b.size ∧ a.align ≥ b.align then some .gt
  else none

/-- Rust's derived `<=` over `partial_cmp`: true when the comparison yields
`Less` or `Equal`. -/
def le (a b : Element) : Prop :=
  pcmp a b = some .lt ∨ pcmp a b = some .eq

instance (a b : Element) : Decidable (le a b) := by
  unfold le; infer_instance

/-- Rust `From<Pixel<P>> for Element`. -/
def of_pixel (p : Pixel) : Element :=
  { size := p.size, align := p.align }

end Element

/-- The incomparability condition exactly as the claim words it: one element
has larger size but smaller (or equal) alignment than the other, or vice
versa (larger alignment but smaller or equal size).  This definition follows
the specification's words, to be compared against the source's
`partial_cmp`. -/
def claimed_incomparable (a b : Element) : Prop :=
  (b.size < a.size ∧ a.align ≤ b.align) ∨ (b.align < a.align ∧ a.size ≤ b.size) ∨
  (a.size < b.size ∧ b.align ≤ a.align) ∨ (a.align < b.align ∧ b.size ≤ a.size)

instance (a b : Element) : Decidable (claimed_incomparable a b) := by
  unfold claimed_incomparable; infer_instance

/-- Rust `layout::Matrix`: element plus two dimensions; `first_dim * second_dim *
element.size` was overflow-checked at construction. -/
structure Matrix where
  element : Element
  first_dim : Nat
  second_dim : Nat
  deriving DecidableEq, Repr

namespace Matrix

/-- Rust `Matrix::empty`. -/
def empty (element : Element) : Matrix :=
  { element, first_dim := 0, second_dim := 0 }

/-- Rust `Matrix::from_width_height`: both products are overflow-checked via
`usize::checked_mul` before the matrix is produced. -/
def from_width_height (element : Element) (first_dim second_dim : Nat) :
    Option Matrix := do
  let max_index ← checked_mul first_dim second_dim
  let _ ← checked_mul max_index element.size
  some { element, first_dim, second_dim }

/-- Rust `Matrix::len`. -/
def len (m : Matrix) : Nat := m.first_dim * m.second_dim

/-- Rust `Matrix::byte_len`. -/
def byte_len (m : Matrix) : Nat := m.element.size * m.len

/-- Rust `<Matrix as Take>::take`: the first component is what `take` returns,
the second is the state `self` is left in. -/
def take (m : Matrix) : Matrix × Matrix :=
  (m, Matrix.empty m.element)

end Matrix

/-- Rust `layout::TMatrix<P>`: the statically pixel-typed counterpart of
`Matrix`; the phantom parameter `P` is represented by the witness value. -/
structure TMatrix where
  pixel : Pixel
  first_dim : Nat
  second_dim : Nat
  deriving DecidableEq, Repr

/-- Rust `layout::MismatchedPixelError`: a payload-free marker error. -/
structure MismatchedPixelError where
  deriving DecidableEq, Repr

namespace TMatrix

/-- Rust `TMatrix::empty`. -/
def empty (pixel : Pixel) : TMatrix :=
  { pixel, first_dim := 0, second_dim := 0 }

/-- Rust `TMatrix::with_matrix`: succeeds when the witness's size equals the
matrix element's size. -/
def with_matrix (pixel : Pixel) (matrix : Matrix) : Option TMatrix :=
  if pixel.size = matrix.element.size then
    some { pixel, first_dim := matrix.first_dim, second_dim := matrix.second_dim }
  else
    none

/-- Rust `TMatrix::into_matrix`. -/
def into_matrix (t : TMatrix) : Matrix :=
  { element := Element.of_pixel t.pixel,
    first_dim := t.first_dim, second_dim := t.second_dim }

/-- Rust `<TMatrix<P> as Layout>::byte_len`. -/
def byte_len (t : TMatrix) : Nat :=
  t.into_matrix.byte_len

/-- Rust `<TMatrix<P> as Take>::take`: first component is the returned prior
value, second the state left behind. -/
def take (t : TMatrix) : TMatrix × TMatrix :=
  (t, TMatrix.empty t.pixel)

end TMatrix

/-- Rust `impl Decay<TMatrix<P>> for Matrix`. -/
def Matrix.decay (t : TMatrix) : Matrix :=
  t.into_matrix

/-- Rust `impl TryMend<Matrix> for Pixel<P>`: `try_mend` attaches the witness to
an untyped matrix, failing with `MismatchedPixelError` on size mismatch. -/
def Pixel.try_mend (pixel : Pixel) (matrix : Matrix) :
    Except MismatchedPixelError TMatrix :=
  match TMatrix.with_matrix pixel matrix with
  | some t => .ok t
  | none => .error {}

/-- Rust `layout::Yuv420p`: planar 4:2:0 image layout. -/
structure Yuv420p where
  channel : Element
  width : Nat
  height : Nat
  deriving DecidableEq, Repr

namespace Yuv420p

/-- Rust `Yuv420p::from_width_height`.  The `usize::try_from(u32)` conversions of
the source are infallible on the modelled 64-bit platform and are omitted. -/
def from_width_height (channel : Element) (width height : Nat) :
    Option Yuv420p := do
  if width % 2 ≠ 0 ∨ height % 2 ≠ 0 then
    none
  else do
    let y_count ← checked_mul width height
    let uv_count := y_count / 2
    let count ← checked_add y_count uv_count
    let _ ← checked_mul count channel.size
    some { channel, width, height }

/-- Rust `Yuv420p::byte_len`. -/
def byte_len (y : Yuv420p) : Nat :=
  let ylen := y.width * y.height * y.channel.size
  ylen + ylen / 2

end Yuv420p

/-!
### Slice casting (`src/pixel.rs`)

`Pixel::cast_buf` reinterprets the bytes of an anchor-aligned buffer `buf`
as a slice `[P]`: `slice::from_raw_parts(ptr, buffer.len() / size_of(P))`.
The buffer is modelled by its byte contents (a `List Nat`); its 16-byte
start-address alignment is an address-level invariant of the `buf` wrapper
with no counterpart in the value model.  The typed view produced by the raw
cast is the sequence of consecutive `size`-byte groups read from the front
of the buffer, stopping as soon as fewer than `size` bytes remain.
-/

/-- Consecutive `size`-byte groups of a byte list, dropping any short
remainder: the value semantics of `slice::from_raw_parts` at a type of size
`size` over the given bytes. -/
def cast_chunks (size : Nat) (bytes : List Nat) : List (List Nat) :=
  if h : 0 < size ∧ size ≤ bytes.length then
    bytes.take size :: cast_chunks size (bytes.drop size)
  else
    []
termination_by bytes.length
decreasing_by
  simp only [List.length_drop]
  omega

/-- Rust `Pixel::cast_buf` (and hence `cast_to_slice`): a zero-sized pixel yields
the degenerate `usize::MAX`-element view; otherwise the buffer is
reinterpreted as `buffer.len() / size_of(P)` consecutive pixels. -/
def Pixel.cast_buf (p : Pixel) (bytes : List Nat) : List (List Nat) :=
  if p.size = 0 then List.replicate USIZE_MAX []
  else cast_chunks p.size bytes

/-!
### DRM frame-buffer validation (`src/drm.rs`)
-/

/-- Rust `drm::FourCC`, a format code stored as a packed little-endian `u32`. -/
structure FourCC where
  code : Nat
  deriving DecidableEq, Repr

namespace FourCC

/-- Rust `FourCC::from`, packing four ASCII bytes low-byte-first. -/
def fromArr (a b c d : Nat) : FourCC :=
  ⟨a ||| (b <<< 8) ||| (c <<< 16) ||| (d <<< 24)⟩

/-- Rust `FourCC::INVALID`. -/
def INVALID : FourCC := ⟨0⟩

/-- Rust `FourCC::C8`, from `b"C8  "`. -/
def C8 : FourCC := fromArr 67 56 32 32

/-- Rust `FourCC::RGB332`, from `b"RGB8"`. -/
def RGB332 : FourCC := fromArr 82 71 66 56

/-- Rust `FourCC::BGR332`, from `b"BGR8"`. -/
def BGR332 : FourCC := fromArr 66 71 82 56

/-- Rust `FourCC::XRGB444`, from `b"XR12"`. -/
def XRGB444 : FourCC := fromArr 88 82 49 50

/-- Rust `FourCC::XBGR444`, from `b"XB12"`. -/
def XBGR444 : FourCC := fromArr 88 66 49 50

/-- Rust `FourCC::RGBX444`, from `b"RX12"`. -/
def RGBX444 : FourCC := fromArr 82 88 49 50

/-- Rust `FourCC::BGRX444`, from `b"BX12"`. -/
def BGRX444 : FourCC := fromArr 66 88 49 50

end FourCC

/-- Rust `drm::DrmFormatInfo`; the four-entry `u8` arrays are modelled as lists of
length 4 indexed with `List.getD`. -/
structure DrmFormatInfo where
  format : FourCC
  num_planes : Nat
  char_per_block : List Nat
  block_w : List Nat
  block_h : List Nat
  hsub : Nat
  vsub : Nat
  has_alpha : Bool
  is_yuv : Bool
  deriving DecidableEq, Repr

/-- Rust `DrmFormatInfo::PIXEL1_TEMPLATE`. -/
def DrmFormatInfo.PIXEL1_TEMPLATE : DrmFormatInfo :=
  { format := FourCC.INVALID, num_planes := 0, char_per_block := [0, 0, 0, 0],
    block_w := [1, 1, 1, 1], block_h := [1, 1, 1, 1], hsub := 1, vsub := 1,
    has_alpha := false, is_yuv := false }

/-- Rust `drm::BadDrmError`, a payload-free marker error. -/
structure BadDrmError where
  deriving DecidableEq, Repr

/-- Rust `FourCC::info`: the built-in format registry. -/
def FourCC.info (c : FourCC) : Except BadDrmError DrmFormatInfo :=
  if c = FourCC.C8 then
    .ok { DrmFormatInfo.PIXEL1_TEMPLATE with
          num_planes := 1, char_per_block := [1, 0, 0, 0], format := c }
  else if c = FourCC.RGB332 ∨ c = FourCC.BGR332 then
    .ok { DrmFormatInfo.PIXEL1_TEMPLATE with
          num_planes := 1, char_per_block := [1, 0, 0, 0], format := c }
  else if c = FourCC.XRGB444 ∨ c = FourCC.XBGR444 ∨ c = FourCC.RGBX444 ∨
      c = FourCC.BGRX444 then
    .ok { DrmFormatInfo.PIXEL1_TEMPLATE with
          num_planes := 1, char_per_block := [2, 0, 0, 0], format := c }
  else
    .error {}

/-- Rust `FourCC::block_element`. -/
def FourCC.block_element (c : FourCC) : Option Element :=
  if c = FourCC.C8 ∨ c = FourCC.RGB332 ∨ c = FourCC.BGR332 then
    some (Element.of_pixel U8)
  else if c = FourCC.XRGB444 ∨ c = FourCC.XBGR444 ∨ c = FourCC.RGBX444 ∨
      c = FourCC.BGRX444 then
    some (Element.of_pixel U16)
  else
    none

/-- Rust `drm::PlaneIdx`. -/
inductive PlaneIdx
  | First
  | Second
  | Third
  deriving DecidableEq, Repr

/-- Rust `PlaneIdx::to_index` (discriminants are 1, 2, 3; the index is one
less). -/
def PlaneIdx.to_index : PlaneIdx → Nat
  | .First => 0
  | .Second => 1
  | .Third => 2

/-- Rust `PlaneIdx::PLANES`. -/
def PlaneIdx.PLANES : List PlaneIdx := [.First, .Second, .Third]

/-- Rust `drm::round_up_div`.  (In Rust a zero divisor would abort; every call
site settled here passes a nonzero divisor.) -/
def round_up_div (dimension : Nat) (div : Nat) : Nat :=
  dimension / div + if dimension % div = 0 then 0 else 1

/-- Rust `DrmFormatInfo::plane_width`: subsampled planes of a YUV format divide
the width by `vsub` (as written in the source), then round up by the plane's
block width. -/
def DrmFormatInfo.plane_width (self : DrmFormatInfo) (width : Nat)
    (idx : PlaneIdx) : Option Nat :=
  let width := if self.is_yuv ∧ idx ≠ .First then round_up_div width self.vsub
    else width
  let i := idx.to_index
  some (round_up_div width (self.block_w.getD i 0))

/-- Rust `DrmFormatInfo::plane_height`: subsampled planes of a YUV format divide
the height by `hsub` (as written in the source), then round up by the
plane's block height. -/
def DrmFormatInfo.plane_height (self : DrmFormatInfo) (height : Nat)
    (idx : PlaneIdx) : Option Nat :=
  let height := if self.is_yuv ∧ idx ≠ .First then round_up_div height self.hsub
    else height
  let i := idx.to_index
  some (round_up_div height (self.block_h.getD i 0))

/-- Rust `drm::DrmFramebufferCmd`: the raw, unvalidated user request.  The `u32`
and `u64` fields are modelled as `Nat`; the four-entry arrays as lists of
length 4. -/
structure DrmFramebufferCmd where
  width : Nat
  height : Nat
  fourcc : FourCC
  flags : Int
  pitches : List Nat
  offsets : List Nat
  modifier : List Nat
  deriving DecidableEq, Repr

/-- Rust `drm::DrmFramebuffer`: the validated descriptor held by `DrmLayout`. -/
structure DrmFramebuffer where
  format : DrmFormatInfo
  pitches : List Nat
  offsets : List Nat
  modifier : Nat
  width : Nat
  height : Nat
  flags : Int
  deriving DecidableEq, Repr

/-- Rust `drm::DrmLayout`. -/
structure DrmLayout where
  info : DrmFramebuffer
  element : Element
  total_len : Nat
  deriving DecidableEq, Repr

/-- Rust `drm::PlaneInfo`. -/
structure PlaneInfo where
  format : FourCC
  char_per_block : Nat
  block_w : Nat
  block_h : Nat
  hsub : Nat
  vsub : Nat
  has_alpha : Bool
  is_yuv : Bool
  deriving DecidableEq, Repr

/-- Rust `drm::PlaneLayout`. -/
structure PlaneLayout where
  format : PlaneInfo
  pitch : Nat
  offset : Nat
  modifier : Nat
  width : Nat
  height : Nat
  deriving DecidableEq, Repr

/-- The per-plane loop of `DrmLayout::new`, over the enumerated plane list,
threading the running `last_plane_end`. -/
def DrmLayout.check_planes (format_info : DrmFormatInfo)
    (cmd : DrmFramebufferCmd) :
    List (Nat × PlaneIdx) → Nat → Except BadDrmError Nat
  | [], last_plane_end => .ok last_plane_end
  | (idx, plane) :: rest, last_plane_end =>
    if cmd.modifier.getD idx 0 ≠ 0 then .error {}
    else if format_info.char_per_block.getD idx 0 = 0 then .error {}
    else if format_info.block_w.getD idx 0 = 0 then .error {}
    else if format_info.block_h.getD idx 0 = 0 then .error {}
    else if cmd.offsets.getD idx 0 < last_plane_end then .error {}
    else
      match format_info.plane_width cmd.width plane with
      | none => .error {}
      | some width =>
        match format_info.plane_height cmd.height plane with
        | none => .error {}
        | some height =>
          match u32_checked_mul (format_info.char_per_block.getD idx 0) width with
          | none => .error {}
          | some char_per_line =>
            if cmd.pitches.getD idx 0 < char_per_line then .error {}
            else
              match u32_checked_mul (cmd.pitches.getD idx 0) height with
              | none => .error {}
              | some char_for_plane =>
                match u32_checked_add (cmd.offsets.getD idx 0) char_for_plane with
                | none => .error {}
                | some lpe => check_planes format_info cmd rest lpe

/-- Rust `DrmLayout::new`: the single fallible constructor validating a raw
`DrmFramebufferCmd`.  The `usize::try_from` conversions of `u32` values are
infallible on the modelled 64-bit platform and are omitted. -/
def DrmLayout.new (cmd : DrmFramebufferCmd) : Except BadDrmError DrmLayout :=
  match cmd.fourcc.info with
  | .error e => .error e
  | .ok format_info =>
    if format_info.num_planes < 1 ∨ format_info.num_planes > 3 then .error {}
    else
      match cmd.fourcc.block_element with
      | none => .error {}
      | some element =>
        if cmd.modifier.any (fun m => m ≠ cmd.modifier.getD 0 0) then .error {}
        else
          match DrmLayout.check_planes format_info cmd
              ((PlaneIdx.PLANES.take format_info.num_planes).enum) 0 with
          | .error e => .error e
          | .ok last_plane_end =>
            if ¬format_info.is_yuv ∧ (format_info.hsub ≠ 1 ∨ format_info.vsub ≠ 1)
            then .error {}
            else if format_info.hsub > 4 ∨ ¬is_power_of_two format_info.hsub
            then .error {}
            else if format_info.vsub > 4 ∨ ¬is_power_of_two format_info.vsub
            then .error {}
            else
              .ok { info := { format := format_info, pitches := cmd.pitches,
                              offsets := cmd.offsets,
                              modifier := cmd.modifier.getD 0 0,
                              width := cmd.width, height := cmd.height,
                              flags := 0 },
                    element, total_len := last_plane_end }

/-- Rust `<DrmLayout as Layout>::byte_len`. -/
def DrmLayout.byte_len (l : DrmLayout) : Nat := l.total_len

/-- Rust `DrmLayout::plane`.  The source unwraps `plane_width`/`plane_height`,
which always return a value; the unwrap is modelled with `Option.getD`. -/
def DrmLayout.plane (self : DrmLayout) (plane_idx : PlaneIdx) :
    Option PlaneLayout :=
  let idx := plane_idx.to_index
  if self.info.format.char_per_block.getD idx 0 = 0 ∨
      self.info.format.block_w.getD idx 0 = 0 ∨
      self.info.format.block_h.getD idx 0 = 0 then
    none
  else
    some { format := { format := self.info.format.format,
                       char_per_block := self.info.format.char_per_block.getD idx 0,
                       block_w := self.info.format.block_w.getD idx 0,
                       block_h := self.info.format.block_h.getD idx 0,
                       hsub := self.info.format.hsub,
                       vsub := self.info.format.vsub,
                       has_alpha := self.info.format.has_alpha,
                       is_yuv := self.info.format.is_yuv },
           pitch := self.info.pitches.getD idx 0,
           offset := self.info.offsets.getD idx 0,
           modifier := self.info.modifier,
           width := (self.info.format.plane_width self.info.width plane_idx).getD 0,
           height := (self.info.format.plane_height self.info.height plane_idx).getD 0 }

/-- The C8 single-plane descriptor of the specification's literal
frame-buffer scenario: `width = 4`, `height = 2`, `pitches[0] = 4`,
`offsets[0] = 0`, all modifiers 0. -/
def cmd_c8_ok : DrmFramebufferCmd :=
  { width := 4, height := 2, fourcc := FourCC.C8, flags := 0,
    pitches := [4, 0, 0, 0], offsets := [0, 0, 0, 0],
    modifier := [0, 0, 0, 0] }

/-- The same descriptor with `pitches[0] = 3`, less than
`width * char_per_block = 4`. -/
def cmd_c8_short_pitch : DrmFramebufferCmd :=
  { cmd_c8_ok with pitches := [3, 0, 0, 0] }

/-- The layout produced by `DrmLayout::new` on `cmd_c8_ok`. -/
def layout_c8 : DrmLayout :=
  { info := { format := { format := FourCC.C8, num_planes := 1,
                          char_per_block := [1, 0, 0, 0],
                          block_w := [1, 1, 1, 1], block_h := [1, 1, 1, 1],
                          hsub := 1, vsub := 1, has_alpha := false,
                          is_yuv := false },
              pitches := [4, 0, 0, 0], offsets := [0, 0, 0, 0],
              modifier := 0, width := 4, height := 2, flags := 0 },
    element := ⟨1, 1⟩, total_len := 8 }

/-- A YUV-flagged format info with `hsub = 1`, `vsub = 2` and 1×1 blocks,
used to evaluate the plane dimension derivation. -/
def fi_yuv_test : DrmFormatInfo :=
  { format := FourCC.INVALID, num_planes := 3, char_per_block := [1, 1, 1, 0],
    block_w := [1, 1, 1, 1], block_h := [1, 1, 1, 1], hsub := 1, vsub := 2,
    has_alpha := false, is_yuv := true }

end Canvas

namespace Canvas

/-! ## Helper lemmas (shared, not tied to any single claim) -/

/-- Rust's derived `<=` on `Element` holds exactly when both size and
alignment are componentwise `≤`. -/
theorem Element.le_iff (a b : Element) :
    Element.le a b ↔ a.size ≤ b.size ∧ a.align ≤ b.align := by
  unfold Element.le Element.pcmp
  split_ifs with h1 h2 h3 <;> simp_all <;> omega

/-- Fuel-indexed form of the chunk-count lemma, for induction on the byte
count. -/
theorem cast_chunks_length_aux (size : Nat) (hs : size ≠ 0) (n : Nat) :
    ∀ bytes : List Nat, bytes.length ≤ n →
      (cast_chunks size bytes).length = bytes.length / size := by
  induction n with
  | zero =>
    intro bytes hb
    have hlt : bytes.length < size := by omega
    rw [cast_chunks, dif_neg (by omega)]
    simp [Nat.div_eq_of_lt hlt]
  | succ n ih =>
    intro bytes hb
    rw [cast_chunks]
    by_cases h : 0 < size ∧ size ≤ bytes.length
    · rw [dif_pos h, List.length_cons, ih (bytes.drop size) (by simp; omega),
        List.length_drop, Nat.div_eq_sub_div (Nat.pos_of_ne_zero hs) h.2]
    · rw [dif_neg h]
      have hlt : bytes.length < size := by omega
      simp [Nat.div_eq_of_lt hlt]

/-- The chunking cast yields exactly `⌊length / size⌋` groups. -/
theorem cast_chunks_length (size : Nat) (hs : size ≠ 0) (bytes : List Nat) :
    (cast_chunks size bytes).length = bytes.length / size :=
  cast_chunks_length_aux size hs bytes.length bytes le_rfl

/-- Fuel-indexed form of the chunk-content lemma. -/
theorem cast_chunks_flatten_aux (size : Nat) (hs : size ≠ 0) (n : Nat) :
    ∀ bytes : List Nat, bytes.length ≤ n →
      (cast_chunks size bytes).flatten =
        bytes.take (size * (bytes.length / size)) := by
  induction n with
  | zero =>
    intro bytes hb
    have hlt : bytes.length < size := by omega
    rw [cast_chunks, dif_neg (by omega)]
    simp [Nat.div_eq_of_lt hlt]
  | succ n ih =>
    intro bytes hb
    rw [cast_chunks]
    by_cases h : 0 < size ∧ size ≤ bytes.length
    · rw [dif_pos h, List.flatten_cons, ih (bytes.drop size) (by simp; omega),
        List.length_drop, Nat.div_eq_sub_div (Nat.pos_of_ne_zero hs) h.2,
        Nat.mul_add, Nat.mul_one,
        Nat.add_comm (size * ((bytes.length - size) / size)) size, List.take_add]
    · rw [dif_neg h]
      have hlt : bytes.length < size := by omega
      simp [Nat.div_eq_of_lt hlt]

/-- The chunking cast covers exactly the longest prefix of the buffer whose
length is a multiple of the chunk size: trailing remainder bytes are
dropped. -/
theorem cast_chunks_flatten (size : Nat) (hs : size ≠ 0) (bytes : List Nat) :
    (cast_chunks size bytes).flatten =
      bytes.take (size * (bytes.length / size)) :=
  cast_chunks_flatten_aux size hs bytes.length bytes le_rfl

/-- Every format in the built-in registry is single-plane with 1×1 blocks
and a populated first plane slot. -/
theorem fourcc_info_registry (c : FourCC) (fi : DrmFormatInfo)
    (h : FourCC.info c = .ok fi) :
    fi.num_planes = 1 ∧
    (fi.char_per_block = [1, 0, 0, 0] ∨ fi.char_per_block = [2, 0, 0, 0]) ∧
    fi.block_w = [1, 1, 1, 1] ∧
    fi.block_h = [1, 1, 1, 1] ∧
    fi.hsub = 1 ∧ fi.vsub = 1 ∧ fi.is_yuv = false := by
  unfold FourCC.info at h
  split_ifs at h <;>
    first
      | (cases h; simp [DrmFormatInfo.PIXEL1_TEMPLATE])
      | exact Except.noConfusion h

/-- Inversion for `DrmLayout::new`: a successfully constructed layout stores
the format info that the registry returned for the requested FourCC. -/
theorem drm_layout_new_format (cmd : DrmFramebufferCmd) (layout : DrmLayout)
    (h : DrmLayout.new cmd = .ok layout) :
    cmd.fourcc.info = .ok layout.info.format := by
  unfold DrmLayout.new at h
  repeat'
    first
      | exact Except.noConfusion h
      | split at h
  cases h
  assumption

/-! ## Claim C2 -/

/-- C2: `Matrix::from_width_height(e, w, h)` returns a value exactly when
neither `w * h` nor `(w * h) * e.size` overflows the platform size type, and
on success the matrix's `byte_len()` is `e.size * w * h`. -/
theorem matrix_from_width_height_spec (e : Element) (w h : Nat) :
    ((Matrix.from_width_height e w h).isSome ↔
      w * h ≤ USIZE_MAX ∧ w * h * e.size ≤ USIZE_MAX) ∧
    (∀ m : Matrix, Matrix.from_width_height e w h = some m →
      m.byte_len = e.size * w * h) := by
  unfold Matrix.from_width_height checked_mul
  constructor
  · by_cases h1 : w * h ≤ USIZE_MAX
    · by_cases h2 : w * h * e.size ≤ USIZE_MAX
      · simp [h1, h2, Option.bind]
      · simp [h1, h2, Option.bind]
    · simp [h1, Option.bind]
  · intro m hm
    by_cases h1 : w * h ≤ USIZE_MAX
    · by_cases h2 : w * h * e.size ≤ USIZE_MAX
      · simp [h1, h2, Option.bind] at hm
        subst hm
        simp [Matrix.byte_len, Matrix.len]
        ring
      · simp [h1, h2, Option.bind] at hm
    · simp [h1, Option.bind] at hm

/-- Witness for C2 at `e = ⟨4, 4⟩`, `w = 3`, `h = 5`: construction succeeds
and `byte_len` is `4 * 3 * 5 = 60`. -/
theorem matrix_from_width_height_spec_witness :
    ((Matrix.from_width_height ⟨4, 4⟩ 3 5).isSome ↔
      3 * 5 ≤ USIZE_MAX ∧ 3 * 5 * 4 ≤ USIZE_MAX) ∧
    Matrix.from_width_height ⟨4, 4⟩ 3 5 = some ⟨⟨4, 4⟩, 3, 5⟩ ∧
    (⟨⟨4, 4⟩, 3, 5⟩ : Matrix).byte_len = 4 * 3 * 5 := by
  refine ⟨(matrix_from_width_height_spec ⟨4, 4⟩ 3 5).1, by decide,
    (matrix_from_width_height_spec ⟨4, 4⟩ 3 5).2 ⟨⟨4, 4⟩, 3, 5⟩ (by decide)⟩

/-! ## Claim C4 -/

/-- C4: `Yuv420p::from_width_height(e, w, h)` fails whenever `w` or `h`
is odd, and whenever it succeeds the resulting layout's `byte_len()` equals
`w * h * e.size + (w * h * e.size) / 2`, the chroma half taken with floor
division. -/
theorem yuv420p_from_width_height_spec (e : Element) (w h : Nat) :
    (w % 2 ≠ 0 ∨ h % 2 ≠ 0 → Yuv420p.from_width_height e w h = none) ∧
    (∀ y : Yuv420p, Yuv420p.from_width_height e w h = some y →
      y.byte_len = w * h * e.size + (w * h * e.size) / 2) := by
  constructor
  · intro hodd
    unfold Yuv420p.from_width_height
    rw [if_pos hodd]
  · intro y hy
    unfold Yuv420p.from_width_height at hy
    by_cases hodd : w % 2 ≠ 0 ∨ h % 2 ≠ 0
    · rw [if_pos hodd] at hy
      exact absurd hy (by simp)
    · rw [if_neg hodd] at hy
      unfold checked_mul checked_add at hy
      by_cases h1 : w * h ≤ USIZE_MAX
      · by_cases h2 : w * h + w * h / 2 ≤ USIZE_MAX
        · by_cases h3 : (w * h + w * h / 2) * e.size ≤ USIZE_MAX
          · simp [h1, h2, h3, Option.bind] at hy
            subst hy
            simp [Yuv420p.byte_len]
          · simp [h1, h2, h3, Option.bind] at hy
        · simp [h1, h2, Option.bind] at hy
      · simp [h1, Option.bind] at hy

/-- Witness for C4 at `e = ⟨1, 1⟩`, `w = 4`, `h = 3` (odd height, fails) and
`w = 4`, `h = 2` (succeeds with `byte_len = 8 + 4 = 12`). -/
theorem yuv420p_from_width_height_spec_witness :
    ((4 % 2 ≠ 0 ∨ 3 % 2 ≠ 0) ∧ Yuv420p.from_width_height ⟨1, 1⟩ 4 3 = none) ∧
    (Yuv420p.from_width_height ⟨1, 1⟩ 4 2 = some ⟨⟨1, 1⟩, 4, 2⟩ ∧
      (⟨⟨1, 1⟩, 4, 2⟩ : Yuv420p).byte_len = 4 * 2 * 1 + (4 * 2 * 1) / 2) :=
  ⟨⟨by decide, (yuv420p_from_width_height_spec ⟨1, 1⟩ 4 3).1 (by decide)⟩,
    by decide,
    (yuv420p_from_width_height_spec ⟨1, 1⟩ 4 2).2 ⟨⟨1, 1⟩, 4, 2⟩ (by decide)⟩

/-! ## Claim C5 -/

/-- C5: Decaying a `TMatrix<P>` to an untyped `Matrix` and mending that
matrix with the same pixel witness succeeds and returns a typed matrix equal
to the original (hence equal in `first_dim`, `second_dim` and element size);
mending any matrix with a witness whose size differs from the matrix
element's size fails with `MismatchedPixelError`. -/
theorem tmatrix_decay_mend_roundtrip (t : TMatrix) (p : Pixel) (m : Matrix) :
    Pixel.try_mend t.pixel (Matrix.decay t) = .ok t ∧
    (p.size ≠ m.element.size → Pixel.try_mend p m = .error {}) := by
  constructor
  · simp [Pixel.try_mend, Matrix.decay, TMatrix.with_matrix, TMatrix.into_matrix,
      Element.of_pixel]
  · intro hne
    simp [Pixel.try_mend, TMatrix.with_matrix, hne]

/-- Witness for C5: a `2×3` matrix of `U16` pixels round-trips, and mending a
`U8`-sized witness onto a `U16`-element matrix fails. -/
theorem tmatrix_decay_mend_roundtrip_witness :
    Pixel.try_mend U16 (Matrix.decay ⟨U16, 2, 3⟩) = .ok ⟨U16, 2, 3⟩ ∧
    (U8.size ≠ (⟨⟨2, 2⟩, 2, 3⟩ : Matrix).element.size ∧
      Pixel.try_mend U8 ⟨⟨2, 2⟩, 2, 3⟩ = .error {}) :=
  ⟨(tmatrix_decay_mend_roundtrip ⟨U16, 2, 3⟩ U8 ⟨⟨2, 2⟩, 2, 3⟩).1,
    by decide,
    (tmatrix_decay_mend_roundtrip ⟨U16, 2, 3⟩ U8 ⟨⟨2, 2⟩, 2, 3⟩).2 (by decide)⟩

/-! ## Claim C9 -/

/-- C9: `take()` on a `Matrix` or a `TMatrix<P>` returns the prior value
and leaves a layout with `byte_len() = 0` whose element (respectively pixel
witness, hence element size and alignment) is unchanged. -/
theorem take_empties_preserving_element (m : Matrix) (t : TMatrix) :
    (Matrix.take m).1 = m ∧
    (Matrix.take m).2.byte_len = 0 ∧
    (Matrix.take m).2.element = m.element ∧
    (TMatrix.take t).1 = t ∧
    (TMatrix.take t).2.byte_len = 0 ∧
    (TMatrix.take t).2.pixel = t.pixel := by
  refine ⟨rfl, ?_, rfl, rfl, ?_, rfl⟩
  · simp [Matrix.take, Matrix.empty, Matrix.byte_len, Matrix.len]
  · simp [TMatrix.take, TMatrix.empty, TMatrix.byte_len, TMatrix.into_matrix,
      Matrix.byte_len, Matrix.len]

/-! ## Claim C3 -/

/-- C3: For a pixel witness of nonzero size, casting an aligned byte
buffer to a typed slice yields exactly `⌊byte_length / size⌋` pixels, and the
bytes covered are exactly the longest prefix of the buffer of a length that
is a multiple of the pixel size: the trailing remainder is silently
discarded rather than reported as an error. -/
theorem cast_buf_floor_length (p : Pixel) (bytes : List Nat)
    (hp : p.size ≠ 0) :
    (p.cast_buf bytes).length = bytes.length / p.size ∧
    (p.cast_buf bytes).flatten =
      bytes.take (p.size * (bytes.length / p.size)) := by
  unfold Pixel.cast_buf
  rw [if_neg hp]
  exact ⟨cast_chunks_length p.size hp bytes, cast_chunks_flatten p.size hp bytes⟩

/-- Witness for C3: a 5-byte buffer cast at a 2-byte pixel yields
`⌊5 / 2⌋ = 2` pixels covering the first 4 bytes. -/
theorem cast_buf_floor_length_witness :
    U16.size ≠ 0 ∧
    (U16.cast_buf [10, 11, 12, 13, 14]).length =
      [10, 11, 12, 13, 14].length / U16.size ∧
    (U16.cast_buf [10, 11, 12, 13, 14]).flatten =
      [10, 11, 12, 13, 14].take (U16.size * ([10, 11, 12, 13, 14].length / U16.size)) :=
  ⟨by decide, (cast_buf_floor_length U16 [10, 11, 12, 13, 14] (by decide)).1,
    (cast_buf_floor_length U16 [10, 11, 12, 13, 14] (by decide)).2⟩

/-! ## Claim C1 -/

/-- C1: `DrmLayout::new` on the single-plane C8 descriptor with
`width = 4`, `height = 2`, `pitches[0] = 4`, `offsets[0] = 0` and all
modifier slots 0 succeeds with `byte_len() = 8`; the identical descriptor
with `pitches[0] = 3 < width * char_per_block = 4` fails with the validation
error. -/
theorem drm_layout_new_c8_scenario :
    (DrmLayout.new cmd_c8_ok).map DrmLayout.byte_len = .ok 8 ∧
    DrmLayout.new cmd_c8_short_pitch = .error {} := by
  constructor
  · rfl
  · rfl

/-! ## Claim C6 -/

/-- C6 (code bug): `Element::with_layout` succeeds exactly under the
claimed conditions, and the produced element stores the given size and
alignment, but the `align()` accessor does not return the given alignment:
its body returns `self.size`.  At the failing input size 2, alignment 1,
construction succeeds and the accessor returns 2, not 1. -/
theorem element_with_layout_align_accessor_bug :
    (∀ l : AllocLayout,
      (Element.with_layout l).isSome ↔ l.align ≤ 16 ∧ l.size % l.align = 0) ∧
    Element.with_layout ⟨2, 1⟩ = some ⟨2, 1⟩ ∧
    Element.size_accessor ⟨2, 1⟩ = 2 ∧
    Element.align_accessor ⟨2, 1⟩ = 2 ∧
    ¬Element.align_accessor ⟨2, 1⟩ = 1 := by
  refine ⟨?_, by decide, by decide, by decide, by decide⟩
  intro l
  unfold Element.with_layout
  by_cases h1 : l.align > MaxAlignedPixel.align
  · rw [if_pos h1]
    simp [MaxAlignedPixel] at h1 ⊢
    omega
  · rw [if_neg h1]
    by_cases h2 : l.size % l.align ≠ 0
    · rw [if_pos h2]
      simp [MaxAlignedPixel] at h1 h2 ⊢
      omega
    · rw [if_neg h2]
      simp [MaxAlignedPixel] at h1 h2 ⊢
      omega

/-! ## Claim C7 -/

/-- C7 (counterexample): At size pair (2, 1) and alignment pair (1, 1)
the claim's incomparability condition holds — the first element has larger
size and equal alignment — yet `partial_cmp` compares them (`Greater`), so
the claimed characterisation of incomparability is false at this input. -/
theorem element_incomparable_claim_counterexample :
    claimed_incomparable ⟨2, 1⟩ ⟨1, 1⟩ ∧
    Element.pcmp ⟨2, 1⟩ ⟨1, 1⟩ = some .gt := by
  constructor
  · unfold claimed_incomparable
    decide
  · decide

/-- C7 (amended): Two elements are incomparable exactly when one has
strictly larger size but strictly smaller alignment than the other, or vice
versa; equal pairs compare equal; and the induced `≤` is a genuine partial
order (reflexive, antisymmetric, transitive) that is not total. -/
theorem element_pcmp_partial_order (a b c : Element) :
    (Element.pcmp a b = none ↔
      (b.size < a.size ∧ a.align < b.align) ∨
      (a.size < b.size ∧ b.align < a.align)) ∧
    Element.pcmp a a = some .eq ∧
    (Element.le a b → Element.le b a → a = b) ∧
    (Element.le a b → Element.le b c → Element.le a c) ∧
    ¬∀ x y : Element, Element.le x y ∨ Element.le y x := by
  refine ⟨?_, ?_, ?_, ?_, ?_⟩
  · unfold Element.pcmp
    split_ifs with h1 h2 h3 <;> simp_all <;> omega
  · unfold Element.pcmp
    simp
  · intro hab hba
    rw [Element.le_iff] at hab hba
    have hs : a.size = b.size := by omega
    have ha : a.align = b.align := by omega
    cases a
    cases b
    simp_all
  · intro hab hbc
    rw [Element.le_iff] at hab hbc ⊢
    omega
  · intro htot
    have h := htot ⟨3, 1⟩ ⟨2, 2⟩
    rw [Element.le_iff, Element.le_iff] at h
    simp at h

/-- Witness for C7's amended theorem: transitivity applied at
`⟨1, 1⟩ ≤ ⟨2, 1⟩ ≤ ⟨2, 2⟩`. -/
theorem element_pcmp_partial_order_witness :
    Element.le ⟨1, 1⟩ ⟨2, 1⟩ ∧ Element.le ⟨2, 1⟩ ⟨2, 2⟩ ∧
    Element.le ⟨1, 1⟩ ⟨2, 2⟩ :=
  ⟨by decide, by decide,
    (element_pcmp_partial_order ⟨1, 1⟩ ⟨2, 1⟩ ⟨2, 2⟩).2.2.2.1
      (by decide) (by decide)⟩

/-! ## Claim C8 -/

/-- C8 (code bug): On a YUV format with `hsub = 1`, `vsub = 2` and 1×1
blocks, the width of the second plane at image width 4 evaluates to 2 — the
code divides the width by the *vertical* factor `vsub` — and the height of
the second plane at image height 4 evaluates to 4 — the code divides the
height by the *horizontal* factor `hsub`.  The claim (and the fields' own
documentation) requires width ÷ hsub = 4 and height ÷ vsub = 2. -/
theorem drm_plane_width_divides_by_vsub :
    fi_yuv_test.is_yuv = true ∧ fi_yuv_test.hsub = 1 ∧ fi_yuv_test.vsub = 2 ∧
    fi_yuv_test.plane_width 4 .Second = some 2 ∧
    fi_yuv_test.plane_height 4 .Second = some 4 ∧
    round_up_div 4 fi_yuv_test.hsub = 4 ∧
    round_up_div 4 fi_yuv_test.vsub = 2 := by
  refine ⟨rfl, rfl, rfl, ?_, ?_, rfl, rfl⟩ <;> rfl

/-! ## Claim C10 -/

/-- C10: Every successfully validated `DrmLayout` has a single-plane
format — the whole built-in FourCC registry is single-plane — so
`plane(Second)` and `plane(Third)` return `None` while `plane(First)`
returns `Some`. -/
theorem drm_layout_single_plane (cmd : DrmFramebufferCmd) (layout : DrmLayout)
    (h : DrmLayout.new cmd = .ok layout) :
    layout.info.format.num_planes = 1 ∧
    layout.plane .Second = none ∧
    layout.plane .Third = none ∧
    (layout.plane .First).isSome = true := by
  have hfmt := drm_layout_new_format cmd layout h
  obtain ⟨hnp, hcp, hbw, hbh, _, _, _⟩ := fourcc_info_registry _ _ hfmt
  refine ⟨hnp, ?_, ?_, ?_⟩ <;>
    rcases hcp with hcp | hcp <;>
      simp [DrmLayout.plane, PlaneIdx.to_index, hcp, hbw, hbh]

/-- Witness for C10: the validated C8 layout of the literal scenario has one
plane, a populated first plane and empty second and third plane slots. -/
theorem drm_layout_single_plane_witness :
    DrmLayout.new cmd_c8_ok = .ok layout_c8 ∧
    (layout_c8.info.format.num_planes = 1 ∧
      layout_c8.plane .Second = none ∧
      layout_c8.plane .Third = none ∧
      (layout_c8.plane .First).isSome = true) :=
  ⟨by rfl, drm_layout_single_plane cmd_c8_ok layout_c8 (by rfl)⟩

end Canvas
